import Mathlib

/-!
Shallow embedding of the ftl-mcp MCP gateway (src/ftl-mcp-gateway) and the
auth gateway's JWKS cache and configuration loader (src/ftl-auth-gateway),
with theorems settling the specification claims.

External libraries (serde_json's byte-level parser, the jsonschema
validator, the Spin HTTP host) are modelled as oracle fields of an
environment record; everything written in the repository itself is
translated definition-for-definition.
-/

set_option maxHeartbeats 1000000

namespace Ftl

/-- JSON values, as produced by `serde_json::Value`.  Numbers are modelled
as rationals (covers the i32 error codes and any numeric ids the claims
touch; no arithmetic is performed on them). -/
inductive Json where
  | null : Json
  | bool (b : Bool) : Json
  | num (n : Rat) : Json
  | str (s : String) : Json
  | arr (items : List Json) : Json
  | obj (fields : List (String × Json)) : Json
  deriving Repr

namespace Json

/-- Look up a field of a JSON object (first occurrence, as serde's map
visitor sees the first key). -/
def lookupField (fields : List (String × Json)) (key : String) : Option Json :=
  match fields with
  | [] => none
  | (k, v) :: rest => if k = key then some v else lookupField rest key

/-- serde deserialization of a `String` field. -/
def asString? : Json → Option String
  | .str s => some s
  | _ => none

/-- serde deserialization of an `Option<Value>` struct field: a missing
field and an explicit `null` both become `None`. -/
def optValueField (v : Option Json) : Option Json :=
  match v with
  | none => none
  | some .null => none
  | some v => some v

end Json

/-! ## Models of the Rust `str` primitives the gateway uses

These model functions of Rust's standard library (`replace`, `split`,
`trim`, `starts_with`, `len`, `join`); they are written over the character
list so that the kernel can evaluate them on concrete inputs. -/

/-- Rust `str::replace` with a one-character pattern and replacement
(`name.replace('_', "-")` is the only use). -/
def rustReplaceChar (s : String) (pat repl : Char) : String :=
  ⟨s.data.map (fun c => if c = pat then repl else c)⟩

/-- Helper for `rustSplitChar`. -/
def splitOnCharAux (sep : Char) : List Char → List Char → List String
  | [], acc => [⟨acc.reverse⟩]
  | c :: cs, acc =>
    if c = sep then ⟨acc.reverse⟩ :: splitOnCharAux sep cs []
    else splitOnCharAux sep cs (c :: acc)

/-- Rust `str::split` on a one-character separator: pieces between
occurrences, empty pieces included. -/
def rustSplitChar (s : String) (sep : Char) : List String :=
  splitOnCharAux sep s.data []

/-- Rust `str::trim`: strip leading and trailing whitespace. -/
def rustTrim (s : String) : String :=
  ⟨((s.data.dropWhile Char.isWhitespace).reverse.dropWhile Char.isWhitespace).reverse⟩

/-- Rust `str::starts_with` on a string pattern. -/
def rustStartsWith (s pre : String) : Bool :=
  pre.data.isPrefixOf s.data

/-- Rust `str::len`: the UTF-8 byte length. -/
def rustLen (s : String) : Nat :=
  s.data.foldl (fun n c => n + c.utf8Size) 0

/-- Rust `[..].join(sep)` over a vector of strings. -/
def rustJoin (sep : String) : List String → String
  | [] => ""
  | [x] => x
  | x :: y :: xs => x ++ sep ++ rustJoin sep (y :: xs)

/-! ## JSON-RPC envelope (src/ftl-mcp-gateway/src/mcp_types.rs) -/

/-- `JsonRpcRequest`: `{jsonrpc, id: Option<Value>, method, params: Option<Value>}`. -/
structure JsonRpcRequest where
  jsonrpc : String
  id : Option Json
  method : String
  params : Option Json
  deriving Repr

/-- serde derive deserializer for `JsonRpcRequest`: requires an object with
string fields `jsonrpc` and `method`; `id` and `params` are optional
`Value`s (absent or `null` ↦ `None`); unknown fields are ignored. -/
def JsonRpcRequest.fromJson? (j : Json) : Option JsonRpcRequest :=
  match j with
  | .obj fields => do
    let jsonrpc ← (Json.lookupField fields "jsonrpc").bind Json.asString?
    let method ← (Json.lookupField fields "method").bind Json.asString?
    let id := Json.optValueField (Json.lookupField fields "id")
    let params := Json.optValueField (Json.lookupField fields "params")
    pure { jsonrpc, id, method, params }
  | _ => none

/-- `JsonRpcError = {code: i32, message, data: Option<Value>}`. -/
structure JsonRpcError where
  code : Int
  message : String
  data : Option Json
  deriving Repr

/-- `JsonRpcResult`: untagged union of `{result}` and `{error}`. -/
inductive JsonRpcResult where
  | result (value : Json) : JsonRpcResult
  | error (error : JsonRpcError) : JsonRpcResult
  deriving Repr

/-- `JsonRpcResponse = {jsonrpc, id: Option<Value> (skipped when None), flattened result}`. -/
structure JsonRpcResponse where
  jsonrpc : String
  id : Option Json
  result : JsonRpcResult
  deriving Repr

/-- `JsonRpcResponse::success`. -/
def JsonRpcResponse.success (id : Option Json) (result : Json) : JsonRpcResponse :=
  { jsonrpc := "2.0", id, result := .result result }

/-- `JsonRpcResponse::error`. -/
def JsonRpcResponse.error (id : Option Json) (code : Int) (message : String) : JsonRpcResponse :=
  { jsonrpc := "2.0", id,
    result := .error { code, message, data := none } }

/-- Serialization of `JsonRpcError` (`data` has `skip_serializing_if = Option::is_none`). -/
def JsonRpcError.toJson (e : JsonRpcError) : Json :=
  .obj ([("code", Json.num (e.code : Rat)), ("message", Json.str e.message)] ++
    match e.data with
    | none => []
    | some d => [("data", d)])

/-- Serialization of `JsonRpcResponse`: `jsonrpc`, then `id` only when it is
`Some` (`skip_serializing_if = Option::is_none`), then the flattened
`result`/`error` member. -/
def JsonRpcResponse.toJson (r : JsonRpcResponse) : Json :=
  .obj ([("jsonrpc", Json.str r.jsonrpc)] ++
    (match r.id with
     | none => []
     | some v => [("id", v)]) ++
    (match r.result with
     | .result v => [("result", v)]
     | .error e => [("error", e.toJson)]))

/-- `ErrorCode` constants from mcp_types.rs. -/
def ErrorCode.PARSE_ERROR : Int := -32700
def ErrorCode.INVALID_REQUEST : Int := -32600
def ErrorCode.METHOD_NOT_FOUND : Int := -32601
def ErrorCode.INVALID_PARAMS : Int := -32602
def ErrorCode.INTERNAL_ERROR : Int := -32603

/-! ## MCP protocol types (mcp_types.rs) -/

/-- `McpProtocolVersion`: a single variant renamed to `"2025-06-18"`. -/
inductive McpProtocolVersion where
  | V1 : McpProtocolVersion
  deriving Repr, DecidableEq

/-- serde deserializer for `McpProtocolVersion`: only the literal tag
`"2025-06-18"` is accepted. -/
def McpProtocolVersion.fromJson? (j : Json) : Option McpProtocolVersion :=
  match j with
  | .str s => if s = "2025-06-18" then some .V1 else none
  | _ => none

/-- Serialization of `McpProtocolVersion`. -/
def McpProtocolVersion.toJson : McpProtocolVersion → Json
  | .V1 => .str "2025-06-18"

/-- `ClientCapabilities = {tools: Option<Value>}`. -/
structure ClientCapabilities where
  tools : Option Json
  deriving Repr

/-- serde deserializer for `ClientCapabilities`. -/
def ClientCapabilities.fromJson? (j : Json) : Option ClientCapabilities :=
  match j with
  | .obj fields => some { tools := Json.optValueField (Json.lookupField fields "tools") }
  | _ => none

/-- `ClientInfo = {name, version}`. -/
structure ClientInfo where
  name : String
  version : String
  deriving Repr

/-- serde deserializer for `ClientInfo`: both string fields required. -/
def ClientInfo.fromJson? (j : Json) : Option ClientInfo :=
  match j with
  | .obj fields => do
    let name ← (Json.lookupField fields "name").bind Json.asString?
    let version ← (Json.lookupField fields "version").bind Json.asString?
    pure { name, version }
  | _ => none

/-- `InitializeRequest = {protocolVersion, capabilities, clientInfo}`, all required. -/
structure InitializeRequest where
  protocol_version : McpProtocolVersion
  capabilities : ClientCapabilities
  client_info : ClientInfo
  deriving Repr

/-- serde derive deserializer for `InitializeRequest`. -/
def InitializeRequest.fromJson? (j : Json) : Option InitializeRequest :=
  match j with
  | .obj fields => do
    let pv ← (Json.lookupField fields "protocolVersion").bind McpProtocolVersion.fromJson?
    let caps ← (Json.lookupField fields "capabilities").bind ClientCapabilities.fromJson?
    let ci ← (Json.lookupField fields "clientInfo").bind ClientInfo.fromJson?
    pure { protocol_version := pv, capabilities := caps, client_info := ci }
  | _ => none

/-- `ServerCapabilities`: three optional `Value` members, skipped when `None`. -/
structure ServerCapabilities where
  tools : Option Json
  resources : Option Json
  prompts : Option Json
  deriving Repr

/-- Helper for `skip_serializing_if = "Option::is_none"` members. -/
def optField (key : String) (v : Option Json) : List (String × Json) :=
  match v with
  | none => []
  | some j => [(key, j)]

/-- Serialization of `ServerCapabilities`. -/
def ServerCapabilities.toJson (c : ServerCapabilities) : Json :=
  .obj (optField "tools" c.tools ++ optField "resources" c.resources ++
    optField "prompts" c.prompts)

/-- `ServerInfo = {name, version}`. -/
structure ServerInfo where
  name : String
  version : String
  deriving Repr

/-- Serialization of `ServerInfo`. -/
def ServerInfo.toJson (s : ServerInfo) : Json :=
  .obj [("name", Json.str s.name), ("version", Json.str s.version)]

/-- `InitializeResponse = {protocolVersion, capabilities, serverInfo, instructions?}`. -/
structure InitializeResponse where
  protocol_version : McpProtocolVersion
  capabilities : ServerCapabilities
  server_info : ServerInfo
  instructions : Option String
  deriving Repr

/-- Serialization of `InitializeResponse` (`instructions` skipped when `None`). -/
def InitializeResponse.toJson (r : InitializeResponse) : Json :=
  .obj ([("protocolVersion", r.protocol_version.toJson),
         ("capabilities", r.capabilities.toJson),
         ("serverInfo", r.server_info.toJson)] ++
    (match r.instructions with
     | none => []
     | some s => [("instructions", Json.str s)]))

/-- `CallToolRequest = {name, arguments: Option<Value>}`. -/
structure CallToolRequest where
  name : String
  arguments : Option Json
  deriving Repr

/-- serde derive deserializer for `CallToolRequest`. -/
def CallToolRequest.fromJson? (j : Json) : Option CallToolRequest :=
  match j with
  | .obj fields => do
    let name ← (Json.lookupField fields "name").bind Json.asString?
    let arguments := Json.optValueField (Json.lookupField fields "arguments")
    pure { name, arguments }
  | _ => none


/-! ## Tool contract types (src/ftl-sdk-rs/src/lib.rs), re-exported by mcp_types.rs -/

/-- `ToolAnnotations`: five optional hint fields, all skipped when `None`. -/
structure ToolAnnotations where
  title : Option String
  read_only_hint : Option Bool
  destructive_hint : Option Bool
  idempotent_hint : Option Bool
  open_world_hint : Option Bool
  deriving Repr

/-- Helper for an optional string member. -/
def optStrField (key : String) (v : Option String) : List (String × Json) :=
  match v with
  | none => []
  | some s => [(key, Json.str s)]

/-- Helper for an optional boolean member. -/
def optBoolField (key : String) (v : Option Bool) : List (String × Json) :=
  match v with
  | none => []
  | some b => [(key, Json.bool b)]

/-- Serialization of `ToolAnnotations`. -/
def ToolAnnotations.toJson (a : ToolAnnotations) : Json :=
  .obj (optStrField "title" a.title ++ optBoolField "readOnlyHint" a.read_only_hint ++
    optBoolField "destructiveHint" a.destructive_hint ++
    optBoolField "idempotentHint" a.idempotent_hint ++
    optBoolField "openWorldHint" a.open_world_hint)

/-- `ContentAnnotations = {audience: Option<Vec<String>>, priority: Option<f32>}`.
The `f32` priority is modelled by its rational value (it is only stored and
re-serialized, never computed with). -/
structure ContentAnnotations where
  audience : Option (List String)
  priority : Option Rat
  deriving Repr

/-- Serialization of `ContentAnnotations`. -/
def ContentAnnotations.toJson (a : ContentAnnotations) : Json :=
  .obj ((match a.audience with
         | none => []
         | some xs => [("audience", Json.arr (xs.map Json.str))]) ++
    (match a.priority with
     | none => []
     | some p => [("priority", Json.num p)]))

/-- Helper for an optional `ContentAnnotations` member. -/
def optAnnField (v : Option ContentAnnotations) : List (String × Json) :=
  match v with
  | none => []
  | some a => [("annotations", a.toJson)]

/-- `ResourceContents = {uri, mimeType?, text?, blob?}`. -/
structure ResourceContents where
  uri : String
  mime_type : Option String
  text : Option String
  blob : Option String
  deriving Repr

/-- Serialization of `ResourceContents`. -/
def ResourceContents.toJson (r : ResourceContents) : Json :=
  .obj ([("uri", Json.str r.uri)] ++ optStrField "mimeType" r.mime_type ++
    optStrField "text" r.text ++ optStrField "blob" r.blob)

/-- `ToolContent`: internally tagged enum (`tag = "type"`) with variants
`text`, `image`, `audio`, `resource`. -/
inductive ToolContent where
  | text (text : String) (annotations : Option ContentAnnotations) : ToolContent
  | image (data : String) (mime_type : String)
      (annotations : Option ContentAnnotations) : ToolContent
  | audio (data : String) (mime_type : String)
      (annotations : Option ContentAnnotations) : ToolContent
  | resource (resource : ResourceContents)
      (annotations : Option ContentAnnotations) : ToolContent
  deriving Repr

/-- Serialization of `ToolContent`: the `type` tag first, then the variant's
fields with their serde renames and skips. -/
def ToolContent.toJson : ToolContent → Json
  | .text t ann =>
    .obj ([("type", Json.str "text"), ("text", Json.str t)] ++ optAnnField ann)
  | .image d mt ann =>
    .obj ([("type", Json.str "image"), ("data", Json.str d),
           ("mimeType", Json.str mt)] ++ optAnnField ann)
  | .audio d mt ann =>
    .obj ([("type", Json.str "audio"), ("data", Json.str d),
           ("mimeType", Json.str mt)] ++ optAnnField ann)
  | .resource r ann =>
    .obj ([("type", Json.str "resource"), ("resource", r.toJson)] ++ optAnnField ann)

/-- `ToolResponse = {content, structuredContent?, isError?}`. -/
structure ToolResponse where
  content : List ToolContent
  structured_content : Option Json
  is_error : Option Bool
  deriving Repr

/-- Serialization of `ToolResponse`. -/
def ToolResponse.toJson (r : ToolResponse) : Json :=
  .obj ([("content", Json.arr (r.content.map ToolContent.toJson))] ++
    optField "structuredContent" r.structured_content ++
    optBoolField "isError" r.is_error)

/-- `ToolMetadata = {name, title?, description?, inputSchema, outputSchema?,
annotations?, _meta?}`. -/
structure ToolMetadata where
  name : String
  title : Option String
  description : Option String
  input_schema : Json
  output_schema : Option Json
  annotations : Option ToolAnnotations
  meta : Option Json
  deriving Repr

/-- Serialization of `ToolMetadata`. -/
def ToolMetadata.toJson (t : ToolMetadata) : Json :=
  .obj ([("name", Json.str t.name)] ++ optStrField "title" t.title ++
    optStrField "description" t.description ++
    [("inputSchema", t.input_schema)] ++ optField "outputSchema" t.output_schema ++
    (match t.annotations with
     | none => []
     | some a => [("annotations", a.toJson)]) ++
    optField "_meta" t.meta)

/-- `ListToolsResponse = {tools}`. -/
structure ListToolsResponse where
  tools : List ToolMetadata
  deriving Repr

/-- Serialization of `ListToolsResponse`. -/
def ListToolsResponse.toJson (r : ListToolsResponse) : Json :=
  .obj [("tools", Json.arr (r.tools.map ToolMetadata.toJson))]

/-! ## MCP gateway (src/ftl-mcp-gateway/src/gateway.rs)

The Spin host's HTTP client, `spin_sdk::variables`, serde_json's byte-level
parser and the jsonschema crate are external to the repository; they enter
as oracle fields of `GatewayEnv`.  Every gateway function additionally
returns the list of backend HTTP operations it performed, so that claims
about "no backend call is made" are expressible. -/

/-- An HTTP response as seen from `spin_sdk::http::send` (status plus raw
body bytes, modelled as a string). -/
structure SpinHttpResponse where
  status : Nat
  body : String
  deriving Repr

/-- A backend HTTP operation performed by the gateway. -/
inductive HttpEvent where
  | get (url : String) : HttpEvent
  | post (url : String) (body : Json) : HttpEvent
  deriving Repr

/-- The gateway's external world: Spin variables, the outbound HTTP host
calls (`none` = transport failure), serde_json deserialization of backend
bodies, and the jsonschema compiler.  A compiled validator returns the list
of `(instance_path, error display)` pairs for an instance; `Except.error`
is a schema-compilation failure. -/
structure GatewayEnv where
  vars : String → Option String
  httpGet : String → Option SpinHttpResponse
  httpPost : String → Json → Option SpinHttpResponse
  parseToolMetadata : String → Option ToolMetadata
  parseToolResponse : String → Option ToolResponse
  validatorFor : Json → Except String (Json → List (String × String))

/-- `GatewayConfig = {server_info, validate_arguments (default true)}`. -/
structure GatewayConfig where
  server_info : ServerInfo
  validate_arguments : Bool
  deriving Repr

/-- `default_validate_arguments`. -/
def default_validate_arguments : Bool := true

/-- `McpGateway` holds only its configuration. -/
structure McpGateway where
  config : GatewayConfig

/-- `McpGateway::new`. -/
def McpGateway.new (config : GatewayConfig) : McpGateway := { config }

/-- `McpGateway::snake_to_kebab`: `name.replace('_', "-")`. -/
def McpGateway.snake_to_kebab (name : String) : String :=
  rustReplaceChar name '_' '-'

/-- `McpGateway::fetch_tool_metadata`: GET the tool's base URL; `Some`
only when the transport succeeded, the status was 200 and the body
deserialized as `ToolMetadata`.  Also reports the GET it issued. -/
def McpGateway.fetch_tool_metadata (env : GatewayEnv) (tool_name : String) :
    Option ToolMetadata × List HttpEvent :=
  let component_name := McpGateway.snake_to_kebab tool_name
  let tool_url := "http://" ++ component_name ++ ".spin.internal/"
  let result :=
    match env.httpGet tool_url with
    | some resp =>
      if resp.status = 200 then env.parseToolMetadata resp.body
      else none
    | none => none
  (result, [.get tool_url])

/-- `McpGateway::validate_arguments`: compile the schema, collect the
validation errors, and render them exactly as the source formats them
(the jsonschema crate's own error strings are oracle-supplied). -/
def McpGateway.validate_arguments (env : GatewayEnv) (tool_name : String)
    (schema arguments : Json) : Except String Unit :=
  match env.validatorFor schema with
  | .ok validator =>
    let errors := validator arguments
    if errors.isEmpty then .ok ()
    else
      let error_messages := errors.map
        (fun e => "Validation error at " ++ e.1 ++ ": " ++ e.2)
      .error ("Invalid arguments for tool '" ++ tool_name ++ "': " ++
        rustJoin "; " error_messages)
  | .error e => .error ("Failed to compile schema for tool '" ++ tool_name ++ "': " ++ e)

/-- `McpGateway::handle_initialize`.  serde's diagnostic suffix on the
invalid-params message is elided (the code appends the library's error
display); everything else is verbatim. -/
def McpGateway.handle_initialize (gw : McpGateway) (request : JsonRpcRequest) :
    JsonRpcResponse :=
  match request.params with
  | none =>
    JsonRpcResponse.error request.id ErrorCode.INVALID_PARAMS
      "Missing initialize parameters"
  | some p =>
    match InitializeRequest.fromJson? p with
    | none =>
      JsonRpcResponse.error request.id ErrorCode.INVALID_PARAMS
        "Invalid initialize parameters"
    | some params =>
      if params.protocol_version ≠ McpProtocolVersion.V1 then
        JsonRpcResponse.error request.id ErrorCode.INVALID_REQUEST
          "Unsupported protocol version"
      else
        let response : InitializeResponse := {
          protocol_version := .V1
          capabilities := {
            tools := some (.obj [])
            resources := some (.obj [])
            prompts := some (.obj []) }
          server_info := gw.config.server_info
          instructions := some ("This MCP server provides access to tools via WebAssembly components. " ++
            "Each tool is implemented as an independent component with its own " ++
            "capabilities and annotations.") }
        JsonRpcResponse.success request.id response.toJson

/-- `McpGateway::handle_list_tools`: read `tool_components`, split on
commas and trim, fetch all metadata (join-all preserves submission order),
flatten away the failures. -/
def McpGateway.handle_list_tools (env : GatewayEnv) (request : JsonRpcRequest) :
    JsonRpcResponse × List HttpEvent :=
  match env.vars "tool_components" with
  | none =>
    (JsonRpcResponse.error request.id ErrorCode.INTERNAL_ERROR
      "Failed to get tool components configuration", [])
  | some tool_components =>
    let tool_names := (rustSplitChar tool_components ',').map rustTrim
    let results := tool_names.map (fun tool_name => McpGateway.fetch_tool_metadata env tool_name)
    let tools : List ToolMetadata := (results.map Prod.fst).reduceOption
    let events := (results.map Prod.snd).flatten
    (JsonRpcResponse.success request.id (ListToolsResponse.toJson { tools }), events)

/-- The tail of `McpGateway::handle_call_tool` after the validation block
(gateway.rs lines 266-332): POST the arguments to the tool component and
normalize the reply. -/
def McpGateway.call_tool_component (env : GatewayEnv) (request : JsonRpcRequest)
    (name : String) (tool_arguments : Json) (pre_events : List HttpEvent) :
    JsonRpcResponse × List HttpEvent :=
  let component_name := McpGateway.snake_to_kebab name
  let tool_url := "http://" ++ component_name ++ ".spin.internal/"
  let tool_request_body := tool_arguments
  let events := pre_events ++ [.post tool_url tool_request_body]
  match env.httpPost tool_url tool_request_body with
  | some resp =>
    if resp.status = 200 then
      match env.parseToolResponse resp.body with
      | some tool_response =>
        (JsonRpcResponse.success request.id tool_response.toJson, events)
      | none =>
        (JsonRpcResponse.error request.id ErrorCode.INTERNAL_ERROR
          "Tool returned invalid response format", events)
    else
      let error_text := resp.body
      let tool_response : ToolResponse := {
        content := [ToolContent.text
          ("Tool execution failed (status " ++ toString resp.status ++ "): " ++ error_text)
          none]
        structured_content := none
        is_error := some true }
      (JsonRpcResponse.success request.id tool_response.toJson, events)
  | none =>
    (JsonRpcResponse.error request.id ErrorCode.INTERNAL_ERROR
      ("Failed to call tool '" ++ name ++ "'"), events)

/-- `McpGateway::handle_call_tool`: decode the params, optionally validate
the arguments against the fetched schema (metadata-fetch failure skips
validation and proceeds), then call the component. -/
def McpGateway.handle_call_tool (gw : McpGateway) (env : GatewayEnv)
    (request : JsonRpcRequest) : JsonRpcResponse × List HttpEvent :=
  match request.params with
  | none =>
    (JsonRpcResponse.error request.id ErrorCode.INVALID_PARAMS
      "Missing call tool parameters", [])
  | some p =>
    match CallToolRequest.fromJson? p with
    | none =>
      (JsonRpcResponse.error request.id ErrorCode.INVALID_PARAMS
        "Invalid call tool parameters", [])
    | some params =>
      let tool_arguments := params.arguments.getD (Json.obj [])
      if gw.config.validate_arguments then
        match McpGateway.fetch_tool_metadata env params.name with
        | (some tool_metadata, evs) =>
          match McpGateway.validate_arguments env params.name
              tool_metadata.input_schema tool_arguments with
          | .error validation_error =>
            (JsonRpcResponse.error request.id ErrorCode.INVALID_PARAMS
              validation_error, evs)
          | .ok _ =>
            McpGateway.call_tool_component env request params.name tool_arguments evs
        | (none, evs) =>
          McpGateway.call_tool_component env request params.name tool_arguments evs
      else
        McpGateway.call_tool_component env request params.name tool_arguments []

/-- `McpGateway::handle_ping`. -/
def McpGateway.handle_ping (request : JsonRpcRequest) : JsonRpcResponse :=
  JsonRpcResponse.success request.id (Json.obj [])

/-- `McpGateway::handle_request`: method dispatch.  `None` means no
response (notification). -/
def McpGateway.handle_request (gw : McpGateway) (env : GatewayEnv)
    (request : JsonRpcRequest) : Option JsonRpcResponse × List HttpEvent :=
  match request.method with
  | "initialize" => (some (McpGateway.handle_initialize gw request), [])
  | "initialized" => (none, [])
  | "tools/list" =>
    (some (McpGateway.handle_list_tools env request).1,
     (McpGateway.handle_list_tools env request).2)
  | "tools/call" =>
    (some (McpGateway.handle_call_tool gw env request).1,
     (McpGateway.handle_call_tool gw env request).2)
  | "ping" => (some (McpGateway.handle_ping request), [])
  | _ =>
    (some (JsonRpcResponse.error request.id ErrorCode.METHOD_NOT_FOUND
      ("Method '" ++ request.method ++ "' not found")), [])

/-! ## HTTP entry point (`handle_mcp_request`, gateway.rs lines 340-417) -/

/-- Inbound HTTP method. -/
inductive HttpMethod where
  | get : HttpMethod
  | post : HttpMethod
  | options : HttpMethod
  | other (name : String) : HttpMethod
  deriving Repr, DecidableEq

/-- The inbound request body as serde_json sees it: either bytes that are
not well-formed JSON, or a parsed JSON value (decoding into
`JsonRpcRequest` is a separate step and may still fail). -/
inductive InboundBody where
  | notJson (raw : String) : InboundBody
  | json (j : Json) : InboundBody
  deriving Repr

/-- An inbound HTTP request to the MCP endpoint. -/
structure HttpRequest where
  method : HttpMethod
  body : InboundBody
  deriving Repr

/-- An outbound HTTP response body: empty, plain text, or a serialized
JSON value. -/
inductive RespBody where
  | empty : RespBody
  | text (s : String) : RespBody
  | json (j : Json) : RespBody
  deriving Repr

/-- An outbound HTTP response. -/
structure HttpResponse where
  status : Nat
  headers : List (String × String)
  body : RespBody
  deriving Repr

/-- `serde_json::from_slice::<JsonRpcRequest>` on the inbound body: parse
failure or decode failure both yield `none` (both take the `-32700`
branch in the source). -/
def decodeInbound : InboundBody → Option JsonRpcRequest
  | .notJson _ => none
  | .json j => JsonRpcRequest.fromJson? j

/-- Rust's `str::parse::<bool>`: exactly `"true"` / `"false"`. -/
def parseRustBool : String → Option Bool
  | "true" => some true
  | "false" => some false
  | _ => none

/-- `handle_mcp_request`: CORS preflight, method filter, JSON-RPC decode
(failure ⇒ `-32700` with `id = None`, HTTP 200), then dispatch.  The
serde diagnostic suffix on the parse-error message is elided. -/
def handle_mcp_request (env : GatewayEnv) (req : HttpRequest) :
    HttpResponse × List HttpEvent :=
  if req.method = HttpMethod.options then
    ({ status := 200
       headers := [("Access-Control-Allow-Origin", "*"),
         ("Access-Control-Allow-Methods", "POST, OPTIONS"),
         ("Access-Control-Allow-Headers", "Content-Type")]
       body := .empty }, [])
  else if req.method ≠ HttpMethod.post then
    ({ status := 405
       headers := [("Allow", "POST, OPTIONS")]
       body := .text "Method not allowed" }, [])
  else
    match decodeInbound req.body with
    | none =>
      let error_response := JsonRpcResponse.error none ErrorCode.PARSE_ERROR
        "Invalid JSON-RPC request"
      ({ status := 200
         headers := [("Content-Type", "application/json"),
           ("Access-Control-Allow-Origin", "*")]
         body := .json error_response.toJson }, [])
    | some request =>
      let validate_arguments :=
        (parseRustBool ((env.vars "validate_arguments").getD "true")).getD true
      let config : GatewayConfig := {
        server_info := { name := "ftl-mcp-gateway", version := "0.0.3" }
        validate_arguments }
      let gateway := McpGateway.new config
      match McpGateway.handle_request gateway env request with
      | (none, evs) =>
        ({ status := 200
           headers := [("Content-Type", "application/json"),
             ("Access-Control-Allow-Origin", "*")]
           body := .empty }, evs)
      | (some response, evs) =>
        ({ status := 200
           headers := [("Content-Type", "application/json"),
             ("Access-Control-Allow-Origin", "*")]
           body := .json response.toJson }, evs)

/-! ## JWKS cache (src/ftl-auth-gateway/src/jwks.rs)

The `HashMap<String, (JwksResponse, Instant)>` behind the `RwLock` is
modelled as an association list with unique keys; `Instant` is seconds
since process start (monotonic).  The network and serde_json enter as
oracles; `fetch_jwks` returns its result, the cache after the call, and
the HTTP fetches it performed. -/

/-- `Jwk`: the JSON Web Key structure. -/
structure Jwk where
  kty : String
  kid : Option String
  alg : Option String
  use : Option String
  n : Option String
  e : Option String
  x5c : Option (List String)
  x5t : Option String
  deriving Repr, DecidableEq

/-- `JwksResponse = {keys}`. -/
structure JwksResponse where
  keys : List Jwk
  deriving Repr, DecidableEq

/-- One cache entry: `jwks_uri ↦ (JwksResponse, Instant)`. -/
structure JwksCacheEntry where
  uri : String
  jwks : JwksResponse
  fetched_at : Nat
  deriving Repr, DecidableEq

/-- The cache contents (association list standing for the `HashMap`). -/
abbrev JwksCache := List JwksCacheEntry

/-- `CACHE_DURATION`: 5 minutes, in seconds. -/
def CACHE_DURATION : Nat := 300

/-- `MAX_CACHE_SIZE`. -/
def MAX_CACHE_SIZE : Nat := 100

/-- The `HashMap` key-uniqueness representation invariant. -/
def JwksCache.KeysNodup (cache : JwksCache) : Prop :=
  (cache.map JwksCacheEntry.uri).Nodup

/-- `HashMap::get` on the model. -/
def JwksCache.get (cache : JwksCache) (uri : String) : Option JwksCacheEntry :=
  cache.find? (fun e => e.uri = uri)

/-- `iter().min_by_key(timestamp)`: an entry with the oldest `fetched_at`
(the hash map's iteration order is unspecified; the model takes the first
minimal entry in list order). -/
def JwksCache.minFetched : JwksCache → Option JwksCacheEntry
  | [] => none
  | e :: rest =>
    match JwksCache.minFetched rest with
    | none => some e
    | some m => if e.fetched_at ≤ m.fetched_at then some e else some m

/-- `HashMap::insert`: replace the entry for an existing key, otherwise add
a new entry. -/
def JwksCache.insertEntry (cache : JwksCache) (uri : String) (jwks : JwksResponse)
    (now : Nat) : JwksCache :=
  if cache.any (fun e => e.uri = uri) then
    cache.map (fun e => if e.uri = uri then { uri, jwks, fetched_at := now } else e)
  else
    cache ++ [{ uri, jwks, fetched_at := now }]

/-- The eviction step of `fetch_jwks`: when the map has an entry, remove
the one `min_by_key` found (`HashMap::remove` of its key). -/
def JwksCache.evictOldest (cache : JwksCache) : JwksCache :=
  match JwksCache.minFetched cache with
  | none => cache
  | some oldest => cache.eraseP (fun e => e.uri = oldest.uri)

/-- The auth gateway's external world for JWKS fetching. -/
structure JwksEnv where
  httpGet : String → Option SpinHttpResponse
  parseJwks : String → Option JwksResponse

/-- The miss/expired tail of `fetch_jwks` (jwks.rs lines 60-100):
network fetch, then cache update with size-bounded eviction. -/
def fetch_jwks_network (env : JwksEnv) (now : Nat) (cache : JwksCache)
    (jwks_uri : String) : Except String JwksResponse × JwksCache × List HttpEvent :=
  match env.httpGet jwks_uri with
  | none =>
    (.error ("Failed to fetch JWKS from " ++ jwks_uri), cache, [.get jwks_uri])
  | some response =>
    if response.status ≠ 200 then
      (.error ("Failed to fetch JWKS: HTTP " ++ toString response.status),
       cache, [.get jwks_uri])
    else
      match env.parseJwks response.body with
      | none => (.error "invalid JWKS body", cache, [.get jwks_uri])
      | some jwks =>
        let cache1 :=
          if cache.length ≥ MAX_CACHE_SIZE then JwksCache.evictOldest cache
          else cache
        let cache2 := JwksCache.insertEntry cache1 jwks_uri jwks now
        (.ok jwks, cache2, [.get jwks_uri])

/-- `fetch_jwks`: URI sanity check, fresh-hit short-circuit, then the
network path.  Returns `(result, cache after the call, HTTP fetches
performed)`. -/
def fetch_jwks (env : JwksEnv) (now : Nat) (cache : JwksCache) (jwks_uri : String) :
    Except String JwksResponse × JwksCache × List HttpEvent :=
  if jwks_uri = "" ∨ rustLen jwks_uri > 2048 then
    (.error "Invalid JWKS URI", cache, [])
  else
    match JwksCache.get cache jwks_uri with
    | some entry =>
      if now - entry.fetched_at < CACHE_DURATION then
        (.ok entry.jwks, cache, [])
      else
        fetch_jwks_network env now cache jwks_uri
    | none => fetch_jwks_network env now cache jwks_uri

/-! ## Auth gateway configuration (src/ftl-auth-gateway/src/config.rs) -/

/-- `ProviderConfig`: the `authkit` and `oidc` variants. -/
inductive ProviderConfig where
  | authKit (issuer : String) (jwks_uri : Option String) (audience : Option String) :
      ProviderConfig
  | oidc (name : String) (issuer : String) (jwks_uri : String)
      (audience : Option String) (authorization_endpoint : String)
      (token_endpoint : String) (userinfo_endpoint : Option String)
      (allowed_domains : List String) : ProviderConfig
  deriving Repr, DecidableEq

/-- `spin_sdk::variables::get` (an `Err` from the host is `none`). -/
abbrev SpinVars := String → Option String

/-- `GatewayConfig::ensure_https_url`: reject `http://`, keep `https://`,
otherwise prefix `https://`. -/
def ensure_https_url (url : String) : Except String String :=
  if rustStartsWith url "http://" then
    .error "Auth provider URLs must use HTTPS. HTTP is not allowed for security reasons."
  else if rustStartsWith url "https://" then
    .ok url
  else
    .ok ("https://" ++ url)

/-- A required Spin variable (`variables::get(..).context(msg)`). -/
def requireVar (v : Option String) (msg : String) : Except String String :=
  match v with
  | some s => .ok s
  | none => .error msg

/-- `GatewayConfig::load_provider_config`. -/
def load_provider_config (vars : SpinVars) (provider_type : String) :
    Except String ProviderConfig := do
  let issuer ← requireVar (vars "auth_provider_issuer")
    "auth_provider_issuer is required when auth_provider_type is set"
  let issuer ← ensure_https_url issuer
  let audience := (vars "auth_provider_audience").filter (fun s => s ≠ "")
  match provider_type with
  | "authkit" =>
    let jwks_uri := (vars "auth_provider_jwks_uri").filter (fun s => s ≠ "")
    pure (ProviderConfig.authKit issuer jwks_uri audience)
  | "oidc" => do
    let name ← requireVar (vars "auth_provider_name")
      "auth_provider_name is required for OIDC provider"
    let jwks_uri ← requireVar (vars "auth_provider_jwks_uri")
      "auth_provider_jwks_uri is required for OIDC provider"
    let jwks_uri ← ensure_https_url jwks_uri
    let authorization_endpoint ← requireVar (vars "auth_provider_authorize_endpoint")
      "auth_provider_authorize_endpoint is required for OIDC provider"
    let authorization_endpoint ← ensure_https_url authorization_endpoint
    let token_endpoint ← requireVar (vars "auth_provider_token_endpoint")
      "auth_provider_token_endpoint is required for OIDC provider"
    let token_endpoint ← ensure_https_url token_endpoint
    let userinfo_endpoint ←
      match (vars "auth_provider_userinfo_endpoint").filter (fun s => s ≠ "") with
      | none => pure none
      | some u => (ensure_https_url u).map some
    let allowed_domains :=
      ((rustSplitChar ((vars "auth_provider_allowed_domains").getD "") ',').filter
        (fun s => ¬ rustTrim s = "")).map (fun s => rustTrim s)
    pure (ProviderConfig.oidc name issuer jwks_uri audience authorization_endpoint
      token_endpoint userinfo_endpoint allowed_domains)
  | _ =>
    .error ("Unknown auth provider type: " ++ provider_type ++
      ". Expected 'authkit' or 'oidc'")

/-! ## Concrete fixtures for witnesses and counterexamples -/

/-- A minimal environment: no variables, every backend call fails,
nothing parses, no schema compiles. -/
def trivEnv : GatewayEnv := {
  vars := fun _ => none
  httpGet := fun _ => none
  httpPost := fun _ _ => none
  parseToolMetadata := fun _ => none
  parseToolResponse := fun _ => none
  validatorFor := fun _ => .error "no validator" }

/-- The gateway as `handle_mcp_request` constructs it with
`validate_arguments = true`. -/
def gw0 : McpGateway :=
  McpGateway.new { server_info := { name := "ftl-mcp-gateway", version := "0.0.3" }
                   validate_arguments := true }

/-! ## Helper lemmas: every emitted response echoes the request id -/

theorem handle_initialize_id (gw : McpGateway) (req : JsonRpcRequest) :
    (McpGateway.handle_initialize gw req).id = req.id := by
  unfold McpGateway.handle_initialize
  split
  · rfl
  · split
    · rfl
    · split <;> rfl

theorem handle_list_tools_id (env : GatewayEnv) (req : JsonRpcRequest) :
    (McpGateway.handle_list_tools env req).1.id = req.id := by
  unfold McpGateway.handle_list_tools
  split <;> rfl

theorem call_tool_component_id (env : GatewayEnv) (req : JsonRpcRequest)
    (name : String) (args : Json) (pre : List HttpEvent) :
    (McpGateway.call_tool_component env req name args pre).1.id = req.id := by
  unfold McpGateway.call_tool_component
  dsimp only
  split
  · split
    · split <;> rfl
    · rfl
  · rfl

theorem handle_call_tool_id (gw : McpGateway) (env : GatewayEnv)
    (req : JsonRpcRequest) :
    (McpGateway.handle_call_tool gw env req).1.id = req.id := by
  unfold McpGateway.handle_call_tool
  dsimp only
  split
  · rfl
  · split
    · rfl
    · split
      · split
        · split
          · rfl
          · exact call_tool_component_id ..
        · exact call_tool_component_id ..
      · exact call_tool_component_id ..

/-! ## C1 -/

/-- C1 (counterexample): the request `{jsonrpc:"2.0", id:7,
method:"initialized"}` is well-formed and carries an id, yet
`handle_request` emits no response for it — the code decides
"notification" by the method name, not by the absence of an id. -/
theorem C1_counterexample :
    ({ jsonrpc := "2.0", id := some (Json.num 7), method := "initialized"
       params := none } : JsonRpcRequest).id = some (Json.num 7) ∧
    (McpGateway.handle_request gw0 trivEnv
      { jsonrpc := "2.0", id := some (Json.num 7), method := "initialized"
        params := none }).1 = none :=
  ⟨rfl, rfl⟩

/-- C1 (amended): `handle_request` emits no response exactly for the
method `"initialized"` (regardless of the id); every response it does
emit echoes the request's id verbatim. -/
theorem C1_theorem : ∀ (gw : McpGateway) (env : GatewayEnv) (req : JsonRpcRequest),
    ((McpGateway.handle_request gw env req).1 = none ↔ req.method = "initialized") ∧
    ∀ resp, (McpGateway.handle_request gw env req).1 = some resp → resp.id = req.id := by
  intro gw env req
  constructor
  · unfold McpGateway.handle_request
    split <;> simp_all
  · intro resp hresp
    unfold McpGateway.handle_request at hresp
    split at hresp
    · cases Option.some.inj hresp; exact handle_initialize_id ..
    · exact absurd hresp (by simp)
    · cases Option.some.inj hresp; exact handle_list_tools_id ..
    · cases Option.some.inj hresp; exact handle_call_tool_id ..
    · cases Option.some.inj hresp; rfl
    · cases Option.some.inj hresp; rfl

/-- C1 (witness): for a concrete ping request with id 1 the amended
theorem yields a response whose id is 1. -/
theorem C1_witness :
    (JsonRpcResponse.success (some (Json.num 1)) (Json.obj [])).id =
      ({ jsonrpc := "2.0", id := some (Json.num 1), method := "ping"
         params := none } : JsonRpcRequest).id :=
  (C1_theorem gw0 trivEnv
    { jsonrpc := "2.0", id := some (Json.num 1), method := "ping", params := none }).2
    (JsonRpcResponse.success (some (Json.num 1)) (Json.obj [])) rfl

/-! ## C2 -/

/-- An initialize request whose `protocolVersion` is the (unsupported)
tag `"2024-11-05"`. -/
def reqOldVersion : JsonRpcRequest := {
  jsonrpc := "2.0"
  id := some (Json.num 1)
  method := "initialize"
  params := some (Json.obj [
    ("protocolVersion", Json.str "2024-11-05"),
    ("capabilities", Json.obj []),
    ("clientInfo", Json.obj [("name", Json.str "test"), ("version", Json.str "1.0")])]) }

/-- C2 (counterexample): an initialize request with the unsupported
`protocolVersion` `"2024-11-05"` gets JSON-RPC error `-32602` (params
deserialization fails on the single-variant version enum), not `-32001`;
the gateway defines no `-32001` code at all. -/
theorem C2_counterexample :
    (McpGateway.handle_request gw0 trivEnv reqOldVersion).1 =
      some (JsonRpcResponse.error (some (Json.num 1)) ErrorCode.INVALID_PARAMS
        "Invalid initialize parameters") ∧
    ErrorCode.INVALID_PARAMS ≠ -32001 :=
  ⟨rfl, by decide⟩

/-- C2 (amended): whenever the `protocolVersion` member of an initialize
request's params is not a supported literal tag (i.e. the version enum
rejects it), the gateway answers with error code `-32602` (invalid
params) carrying the request's id. -/
theorem C2_theorem : ∀ (gw : McpGateway) (env : GatewayEnv) (req : JsonRpcRequest)
    (fields : List (String × Json)) (v : Json),
    req.method = "initialize" →
    req.params = some (Json.obj fields) →
    Json.lookupField fields "protocolVersion" = some v →
    McpProtocolVersion.fromJson? v = none →
    (McpGateway.handle_request gw env req).1 =
      some (JsonRpcResponse.error req.id ErrorCode.INVALID_PARAMS
        "Invalid initialize parameters") := by
  intro gw env req fields v hm hp hlk hv
  unfold McpGateway.handle_request
  simp only [hm]
  simp [McpGateway.handle_initialize, hp, InitializeRequest.fromJson?, hlk, hv]

/-- C2 (witness): the amended theorem applied to the concrete
`"2024-11-05"` request. -/
theorem C2_witness :
    (McpGateway.handle_request gw0 trivEnv reqOldVersion).1 =
      some (JsonRpcResponse.error reqOldVersion.id ErrorCode.INVALID_PARAMS
        "Invalid initialize parameters") :=
  C2_theorem gw0 trivEnv reqOldVersion
    [("protocolVersion", Json.str "2024-11-05"),
     ("capabilities", Json.obj []),
     ("clientInfo", Json.obj [("name", Json.str "test"), ("version", Json.str "1.0")])]
    (Json.str "2024-11-05") rfl rfl rfl rfl

/-! ## C3 -/

/-- C3 (counterexample): a POST whose body is not well-formed JSON gets
HTTP 200 and the `-32700` error body, but that body has NO `id` member at
all (the `None` id is skipped during serialization), contradicting
"id present and equal to null". -/
theorem C3_counterexample :
    (handle_mcp_request trivEnv { method := .post, body := .notJson "\x7b" }).1.status = 200 ∧
    ∃ fields,
      (handle_mcp_request trivEnv { method := .post, body := .notJson "\x7b" }).1.body =
        RespBody.json (Json.obj fields) ∧
      Json.lookupField fields "id" = none ∧
      Json.lookupField fields "error" = some (JsonRpcError.toJson
        { code := ErrorCode.PARSE_ERROR, message := "Invalid JSON-RPC request", data := none }) :=
  ⟨rfl, [("jsonrpc", Json.str "2.0"),
    ("error", JsonRpcError.toJson
      { code := ErrorCode.PARSE_ERROR, message := "Invalid JSON-RPC request", data := none })],
    rfl, rfl, rfl⟩

/-- C3 (amended): every inbound POST body that is not well-formed JSON
yields HTTP 200, no backend traffic, and a JSON-RPC `-32700` error body
in which the `id` field is ABSENT (not `null`): serde skips a `None` id. -/
theorem C3_theorem : ∀ (env : GatewayEnv) (raw : String),
    (handle_mcp_request env { method := .post, body := .notJson raw }).1.status = 200 ∧
    (handle_mcp_request env { method := .post, body := .notJson raw }).2 = [] ∧
    ∃ fields,
      (handle_mcp_request env { method := .post, body := .notJson raw }).1.body =
        RespBody.json (Json.obj fields) ∧
      Json.lookupField fields "id" = none ∧
      Json.lookupField fields "error" = some (JsonRpcError.toJson
        { code := ErrorCode.PARSE_ERROR, message := "Invalid JSON-RPC request", data := none }) := by
  intro env raw
  exact ⟨rfl, rfl, [("jsonrpc", Json.str "2.0"),
    ("error", JsonRpcError.toJson
      { code := ErrorCode.PARSE_ERROR, message := "Invalid JSON-RPC request", data := none })],
    rfl, rfl, rfl⟩

/-! ## C4 -/

/-- Environment for the C4 counterexample: metadata fetches fail at
transport level, the backend accepts POSTs, and the schema validator
rejects every instance (so the supplied arguments fail every schema,
in particular the tool's actual input schema). -/
def envC4 : GatewayEnv := {
  vars := fun _ => none
  httpGet := fun _ => none
  httpPost := fun _ _ => some { status := 200, body := "resp" }
  parseToolMetadata := fun _ => none
  parseToolResponse := fun _ => some { content := [], structured_content := none, is_error := none }
  validatorFor := fun _ => .ok (fun _ => [("", "value is not valid")]) }

/-- A `tools/call` request for tool `bad_tool` with no arguments. -/
def reqCallBad : JsonRpcRequest := {
  jsonrpc := "2.0"
  id := some (Json.num 3)
  method := "tools/call"
  params := some (Json.obj [("name", Json.str "bad_tool")]) }

/-- C4 (counterexample): with validation enabled but the tool's metadata
unfetchable, the gateway POSTs to the backend even though the arguments
fail every input schema — no `-32602` is produced; validation is skipped. -/
theorem C4_counterexample :
    (∀ schema : Json,
      McpGateway.validate_arguments envC4 "bad_tool" schema (Json.obj []) ≠ .ok ()) ∧
    gw0.config.validate_arguments = true ∧
    (McpGateway.handle_call_tool gw0 envC4 reqCallBad).2 =
      [HttpEvent.get "http://bad-tool.spin.internal/",
       HttpEvent.post "http://bad-tool.spin.internal/" (Json.obj [])] ∧
    (McpGateway.handle_call_tool gw0 envC4 reqCallBad).1 =
      JsonRpcResponse.success (some (Json.num 3))
        (ToolResponse.toJson { content := [], structured_content := none, is_error := none }) := by
  refine ⟨?_, rfl, by rfl, by rfl⟩
  intro schema
  simp [McpGateway.validate_arguments, envC4]

/-- C4 (amended): when validation is enabled AND the tool's metadata is
successfully fetched, arguments failing the schema stop the invocation:
the gateway answers `-32602` with the validation message and issues no
POST (the trace holds only the metadata GET).  When metadata cannot be
fetched, validation is skipped and the backend is called (the
counterexample). -/
theorem C4_theorem : ∀ (gw : McpGateway) (env : GatewayEnv) (req : JsonRpcRequest)
    (p : Json) (params : CallToolRequest) (md : ToolMetadata)
    (evs : List HttpEvent) (err : String),
    gw.config.validate_arguments = true →
    req.params = some p →
    CallToolRequest.fromJson? p = some params →
    McpGateway.fetch_tool_metadata env params.name = (some md, evs) →
    McpGateway.validate_arguments env params.name md.input_schema
      (params.arguments.getD (Json.obj [])) = .error err →
    McpGateway.handle_call_tool gw env req =
      (JsonRpcResponse.error req.id ErrorCode.INVALID_PARAMS err, evs) ∧
    ∀ url body, HttpEvent.post url body ∉ evs := by
  intro gw env req p params md evs err hflag hp hdec hfetch hval
  have hevs : evs = [HttpEvent.get
      ("http://" ++ McpGateway.snake_to_kebab params.name ++ ".spin.internal/")] := by
    have h2 := congrArg Prod.snd hfetch
    simpa [McpGateway.fetch_tool_metadata] using h2.symm
  constructor
  · unfold McpGateway.handle_call_tool
    simp [hp, hdec, hflag, hfetch, hval]
  · intro url body hmem
    rw [hevs] at hmem
    simp at hmem

/-- C4 (witness) setup: a tool whose metadata does fetch and whose
validator rejects the arguments. -/
def mdAddW : ToolMetadata := {
  name := "add", title := none, description := none
  input_schema := Json.obj [("type", Json.str "object")]
  output_schema := none, annotations := none, meta := none }

/-- Environment where fetching `add`'s metadata succeeds and validation
fails at `/a`. -/
def envC4w : GatewayEnv := {
  vars := fun _ => none
  httpGet := fun _ => some { status := 200, body := "md" }
  httpPost := fun _ _ => some { status := 200, body := "resp" }
  parseToolMetadata := fun _ => some mdAddW
  parseToolResponse := fun _ => none
  validatorFor := fun _ => .ok (fun _ => [("/a", "bad type")]) }

/-- A `tools/call` for `add` with a bad argument. -/
def reqCallAdd : JsonRpcRequest := {
  jsonrpc := "2.0"
  id := some (Json.num 4)
  method := "tools/call"
  params := some (Json.obj [("name", Json.str "add"),
    ("arguments", Json.obj [("a", Json.str "two")])]) }

/-- C4 (witness): the amended theorem at the concrete failing call —
`-32602` with the validation message, and only the metadata GET in the
trace. -/
theorem C4_witness :
    McpGateway.handle_call_tool gw0 envC4w reqCallAdd =
      (JsonRpcResponse.error reqCallAdd.id ErrorCode.INVALID_PARAMS
        "Invalid arguments for tool 'add': Validation error at /a: bad type",
       [HttpEvent.get "http://add.spin.internal/"]) ∧
    ∀ url body, HttpEvent.post url body ∉ [HttpEvent.get "http://add.spin.internal/"] :=
  C4_theorem gw0 envC4w reqCallAdd
    (Json.obj [("name", Json.str "add"), ("arguments", Json.obj [("a", Json.str "two")])])
    { name := "add", arguments := some (Json.obj [("a", Json.str "two")]) }
    mdAddW [HttpEvent.get "http://add.spin.internal/"]
    "Invalid arguments for tool 'add': Validation error at /a: bad type"
    rfl rfl (by rfl) (by rfl) (by rfl)

/-! ## C5 -/

/-- The backend base URL the gateway composes for a tool name. -/
def toolUrl (n : String) : String :=
  "http://" ++ McpGateway.snake_to_kebab n ++ ".spin.internal/"

/-- Singleton-flatten helper: flattening a map to singletons is the map. -/
theorem flatten_map_singleton {α β : Type} (g : α → β) (l : List α) :
    (l.map (fun a => [g a])).flatten = l.map g := by
  induction l with
  | nil => rfl
  | cons a rest ih => simp [ih]

/-- `reduceOption` after `map` is `filterMap`. -/
theorem reduceOption_map_eq_filterMap {α β : Type} (f : α → Option β) (l : List α) :
    (l.map f).reduceOption = l.filterMap f := by
  rw [List.reduceOption, List.filterMap_map]
  rfl

/-- The result component of a metadata fetch, by the three cases of the
backend's behaviour. -/
theorem fetch_tool_metadata_fst (env : GatewayEnv) (n : String) :
    (McpGateway.fetch_tool_metadata env n).1 =
      match env.httpGet (toolUrl n) with
      | some resp =>
        if resp.status = 200 then env.parseToolMetadata resp.body else none
      | none => none :=
  rfl

/-- C5: for every `tools/list` with a configured components string, the
response is a SUCCESS whose tools are exactly the metadata of the names
whose fetch succeeded, in submission order (`filterMap` over the
submitted names); the trace is one GET per configured name, in order.
Transport failure, non-200 status, and unparseable bodies each make an
individual fetch yield `none` (dropped, not an error). -/
theorem C5_theorem : ∀ (env : GatewayEnv) (req : JsonRpcRequest) (cfg : String),
    env.vars "tool_components" = some cfg →
    McpGateway.handle_list_tools env req =
      (JsonRpcResponse.success req.id (ListToolsResponse.toJson
        { tools := ((rustSplitChar cfg ',').map rustTrim).filterMap
            (fun n => (McpGateway.fetch_tool_metadata env n).1) }),
       ((rustSplitChar cfg ',').map rustTrim).map (fun n => HttpEvent.get (toolUrl n))) ∧
    (∀ n, env.httpGet (toolUrl n) = none →
      (McpGateway.fetch_tool_metadata env n).1 = none) ∧
    (∀ n r, env.httpGet (toolUrl n) = some r → r.status ≠ 200 →
      (McpGateway.fetch_tool_metadata env n).1 = none) ∧
    (∀ n r, env.httpGet (toolUrl n) = some r → env.parseToolMetadata r.body = none →
      (McpGateway.fetch_tool_metadata env n).1 = none) := by
  intro env req cfg hcfg
  refine ⟨?_, ?_, ?_, ?_⟩
  · unfold McpGateway.handle_list_tools
    rw [hcfg]
    dsimp only
    congr 1
    · congr 2
      rw [List.map_map, reduceOption_map_eq_filterMap]
      rfl
    · rw [List.map_map]
      have hc : (Prod.snd ∘ fun tool_name => McpGateway.fetch_tool_metadata env tool_name) =
          fun n => [HttpEvent.get (toolUrl n)] := by
        funext n
        rfl
      rw [hc, flatten_map_singleton]
  · intro n h
    rw [fetch_tool_metadata_fst, h]
  · intro n r h hst
    rw [fetch_tool_metadata_fst, h]
    simp [hst]
  · intro n r h hparse
    rw [fetch_tool_metadata_fst, h]
    dsimp only
    split <;> simp [hparse]

/-- Sample metadata for the `echo` tool. -/
def mdEcho : ToolMetadata := {
  name := "echo", title := none, description := none
  input_schema := Json.obj [("type", Json.str "object")]
  output_schema := none, annotations := none, meta := none }

/-- Sample metadata for the `add` tool. -/
def mdAdd : ToolMetadata := {
  name := "add", title := none, description := none
  input_schema := Json.obj [("type", Json.str "object")]
  output_schema := none, annotations := none, meta := none }

/-- Environment with tools `echo, add,missing` configured where only
`echo` and `add` answer. -/
def envC5 : GatewayEnv := {
  vars := fun k => if k = "tool_components" then some "echo, add,missing" else none
  httpGet := fun url =>
    if url = "http://echo.spin.internal/" then some { status := 200, body := "E" }
    else if url = "http://add.spin.internal/" then some { status := 200, body := "A" }
    else none
  httpPost := fun _ _ => none
  parseToolMetadata := fun b =>
    if b = "E" then some mdEcho else if b = "A" then some mdAdd else none
  parseToolResponse := fun _ => none
  validatorFor := fun _ => .error "no validator" }

/-- A `tools/list` request with id 2. -/
def reqList : JsonRpcRequest := {
  jsonrpc := "2.0", id := some (Json.num 2), method := "tools/list", params := none }

/-- C5 (witness): with `echo, add,missing` configured and `missing` dead,
the result lists exactly `echo` then `add` (submission order) and one GET
went to each configured name. -/
theorem C5_witness :
    McpGateway.handle_list_tools envC5 reqList =
      (JsonRpcResponse.success (some (Json.num 2))
        (ListToolsResponse.toJson { tools := [mdEcho, mdAdd] }),
       [HttpEvent.get "http://echo.spin.internal/",
        HttpEvent.get "http://add.spin.internal/",
        HttpEvent.get "http://missing.spin.internal/"]) :=
  (C5_theorem envC5 reqList "echo, add,missing" rfl).1

/-! ## C6 -/

/-- The non-200 branch of the component call: a SUCCESS result wrapping a
synthesized Tool Response with `isError:true` and the formatted text. -/
theorem call_tool_component_non200 (env : GatewayEnv) (req : JsonRpcRequest)
    (name : String) (args : Json) (pre : List HttpEvent) (resp : SpinHttpResponse)
    (hpost : env.httpPost (toolUrl name) args = some resp)
    (hst : resp.status ≠ 200) :
    McpGateway.call_tool_component env req name args pre =
      (JsonRpcResponse.success req.id (ToolResponse.toJson {
        content := [ToolContent.text
          ("Tool execution failed (status " ++ toString resp.status ++ "): " ++ resp.body)
          none]
        structured_content := none
        is_error := some true }),
       pre ++ [HttpEvent.post (toolUrl name) args]) := by
  unfold McpGateway.call_tool_component
  dsimp only
  rw [show ("http://" ++ McpGateway.snake_to_kebab name ++ ".spin.internal/") =
    toolUrl name from rfl, hpost]
  simp [hst]

/-- C6: whenever a `tools/call` reaches its backend (validation disabled,
metadata unavailable, or validation passed) and the backend answers with
a status other than 200, the gateway returns a SUCCESSFUL JSON-RPC result
whose payload is a Tool Response with `isError:true` and the single text
item `"Tool execution failed (status <code>): <body>"`. -/
theorem C6_theorem : ∀ (gw : McpGateway) (env : GatewayEnv) (req : JsonRpcRequest)
    (p : Json) (params : CallToolRequest) (resp : SpinHttpResponse),
    req.params = some p →
    CallToolRequest.fromJson? p = some params →
    (gw.config.validate_arguments = true →
      ∀ md, (McpGateway.fetch_tool_metadata env params.name).1 = some md →
        McpGateway.validate_arguments env params.name md.input_schema
          (params.arguments.getD (Json.obj [])) = .ok ()) →
    env.httpPost (toolUrl params.name) (params.arguments.getD (Json.obj [])) = some resp →
    resp.status ≠ 200 →
    (McpGateway.handle_call_tool gw env req).1 =
      JsonRpcResponse.success req.id (ToolResponse.toJson {
        content := [ToolContent.text
          ("Tool execution failed (status " ++ toString resp.status ++ "): " ++ resp.body)
          none]
        structured_content := none
        is_error := some true }) := by
  intro gw env req p params resp hp hdec hok hpost hst
  unfold McpGateway.handle_call_tool
  rw [hp]
  dsimp only
  rw [hdec]
  dsimp only
  by_cases hflag : gw.config.validate_arguments = true
  · rw [if_pos hflag]
    rcases hfetch : McpGateway.fetch_tool_metadata env params.name with ⟨mo, evs⟩
    cases mo with
    | some md =>
      have hmd : (McpGateway.fetch_tool_metadata env params.name).1 = some md := by
        rw [hfetch]
      dsimp only
      rw [hok hflag md hmd]
      rw [call_tool_component_non200 env req params.name _ evs resp hpost hst]
    | none =>
      dsimp only
      rw [call_tool_component_non200 env req params.name _ evs resp hpost hst]
  · rw [if_neg hflag]
    rw [call_tool_component_non200 env req params.name _ [] resp hpost hst]

/-- A gateway with argument validation disabled. -/
def gwNoVal : McpGateway :=
  McpGateway.new { server_info := { name := "ftl-mcp-gateway", version := "0.0.3" }
                   validate_arguments := false }

/-- Environment whose backend answers every POST with 500 `boom`. -/
def envC6 : GatewayEnv := {
  vars := fun _ => none
  httpGet := fun _ => none
  httpPost := fun _ _ => some { status := 500, body := "boom" }
  parseToolMetadata := fun _ => none
  parseToolResponse := fun _ => none
  validatorFor := fun _ => .error "no validator" }

/-- C6 (witness): a concrete backend 500 is wrapped as a successful
result with `isError:true` and the formatted text item. -/
theorem C6_witness :
    (McpGateway.handle_call_tool gwNoVal envC6 reqCallBad).1 =
      JsonRpcResponse.success reqCallBad.id (ToolResponse.toJson {
        content := [ToolContent.text "Tool execution failed (status 500): boom" none]
        structured_content := none
        is_error := some true }) :=
  C6_theorem gwNoVal envC6 reqCallBad
    (Json.obj [("name", Json.str "bad_tool")])
    { name := "bad_tool", arguments := none }
    { status := 500, body := "boom" }
    rfl rfl (fun h => absurd h (by decide)) rfl (by decide)

/-! ## C10 -/

/-- C10: an initialize request whose params are absent, or fail to
deserialize into `{protocolVersion, capabilities, clientInfo}`, gets a
`-32602` error carrying the request's id, and the gateway performs no
backend HTTP operation (the trace is empty; the gateway holds no mutable
state at all, so there is no state to change). -/
theorem C10_theorem : ∀ (gw : McpGateway) (env : GatewayEnv) (req : JsonRpcRequest),
    req.method = "initialize" →
    (req.params = none ∨
      ∃ p, req.params = some p ∧ InitializeRequest.fromJson? p = none) →
    ∃ msg, McpGateway.handle_request gw env req =
      (some (JsonRpcResponse.error req.id ErrorCode.INVALID_PARAMS msg), []) := by
  intro gw env req hm hp
  unfold McpGateway.handle_request
  simp only [hm]
  rcases hp with h | ⟨p, hps, hd⟩
  · exact ⟨"Missing initialize parameters", by simp [McpGateway.handle_initialize, h]⟩
  · exact ⟨"Invalid initialize parameters", by simp [McpGateway.handle_initialize, hps, hd]⟩

/-- An initialize request with no params at all. -/
def reqInitNoParams : JsonRpcRequest := {
  jsonrpc := "2.0", id := some (Json.num 9), method := "initialize", params := none }

/-- C10 (witness): the missing-params initialize request gets `-32602`
with its id and an empty backend trace. -/
theorem C10_witness :
    ∃ msg, McpGateway.handle_request gw0 trivEnv reqInitNoParams =
      (some (JsonRpcResponse.error (some (Json.num 9)) ErrorCode.INVALID_PARAMS msg), []) :=
  C10_theorem gw0 trivEnv reqInitNoParams rfl (Or.inl rfl)

/-! ## C7 -/

/-- The entry `min_by_key` selects is in the map. -/
theorem minFetched_mem : ∀ (c : JwksCache) (m : JwksCacheEntry),
    JwksCache.minFetched c = some m → m ∈ c := by
  intro c
  induction c with
  | nil => intro m h; simp [JwksCache.minFetched] at h
  | cons e rest ih =>
    intro m h
    unfold JwksCache.minFetched at h
    cases hr : JwksCache.minFetched rest with
    | none => rw [hr] at h; cases h; exact List.mem_cons_self ..
    | some m' =>
      rw [hr] at h
      dsimp only at h
      split at h
      · cases h; exact List.mem_cons_self ..
      · cases h; exact List.mem_cons_of_mem _ (ih _ hr)

/-- `min_by_key` finds an entry in a non-empty map. -/
theorem minFetched_isSome (e : JwksCacheEntry) (rest : JwksCache) :
    ∃ m, JwksCache.minFetched (e :: rest) = some m := by
  unfold JwksCache.minFetched
  cases hr : JwksCache.minFetched rest with
  | none => exact ⟨e, rfl⟩
  | some m' =>
    dsimp only
    split
    · exact ⟨e, rfl⟩
    · exact ⟨m', rfl⟩

/-- `HashMap::insert` grows the map only when the key is new. -/
theorem length_insertEntry (c : JwksCache) (uri : String) (j : JwksResponse) (now : Nat) :
    (JwksCache.insertEntry c uri j now).length =
      if c.any (fun e => e.uri = uri) then c.length else c.length + 1 := by
  unfold JwksCache.insertEntry
  split <;> simp_all

/-- `HashMap::insert` preserves key uniqueness. -/
theorem keysNodup_insertEntry (c : JwksCache) (uri : String) (j : JwksResponse)
    (now : Nat) (h : c.KeysNodup) : (JwksCache.insertEntry c uri j now).KeysNodup := by
  unfold JwksCache.insertEntry
  split
  · have hmap : (c.map (fun e => if e.uri = uri then
        ({ uri := uri, jwks := j, fetched_at := now } : JwksCacheEntry) else e)).map
          JwksCacheEntry.uri = c.map JwksCacheEntry.uri := by
      rw [List.map_map]
      apply List.map_congr_left
      intro e _
      by_cases he : e.uri = uri
      · simp [he]
      · simp [he]
    unfold JwksCache.KeysNodup
    rw [hmap]
    exact h
  · rename_i hnone
    unfold JwksCache.KeysNodup
    rw [List.map_append]
    rw [List.nodup_append]
    refine ⟨h, by simp, ?_⟩
    intro x hx
    simp only [List.map_cons, List.map_nil, List.mem_singleton]
    intro hx1
    subst hx1
    rw [List.any_eq_true] at hnone
    simp only [List.mem_map] at hx
    obtain ⟨e, he, heq⟩ := hx
    exact hnone ⟨e, he, by simp [heq]⟩

/-- Evicting preserves key uniqueness (it is a sublist). -/
theorem keysNodup_evictOldest (c : JwksCache) (h : c.KeysNodup) :
    (JwksCache.evictOldest c).KeysNodup := by
  unfold JwksCache.evictOldest
  split
  · exact h
  · exact List.Nodup.sublist (List.Sublist.map _ (List.eraseP_sublist _)) h

/-- Evicting from a non-empty map removes exactly one entry. -/
theorem length_evictOldest (e : JwksCacheEntry) (rest : JwksCache) :
    (JwksCache.evictOldest (e :: rest)).length = rest.length := by
  obtain ⟨m, hm⟩ := minFetched_isSome e rest
  unfold JwksCache.evictOldest
  rw [hm]
  have hmem := minFetched_mem _ _ hm
  rw [List.length_eraseP_of_mem hmem (by simp)]
  simp

/-- The network path of `fetch_jwks` preserves the size bound and key
uniqueness. -/
theorem fetch_jwks_network_bound (env : JwksEnv) (now : Nat) (cache : JwksCache)
    (uri : String) (hn : cache.KeysNodup) (hle : cache.length ≤ MAX_CACHE_SIZE) :
    (fetch_jwks_network env now cache uri).2.1.length ≤ MAX_CACHE_SIZE ∧
    (fetch_jwks_network env now cache uri).2.1.KeysNodup := by
  unfold fetch_jwks_network
  cases hg : env.httpGet uri with
  | none => exact ⟨hle, hn⟩
  | some resp =>
    dsimp only
    by_cases hst : resp.status ≠ 200
    · simp only [if_pos hst]
      exact ⟨hle, hn⟩
    · simp only [if_neg hst]
      cases hp : env.parseJwks resp.body with
      | none => exact ⟨hle, hn⟩
      | some jwks =>
        dsimp only
        by_cases hcap : cache.length ≥ MAX_CACHE_SIZE
        · simp only [if_pos hcap]
          cases cache with
          | nil => simp [MAX_CACHE_SIZE] at hcap
          | cons e rest =>
            have hr : rest.length + 1 ≤ MAX_CACHE_SIZE := by
              simpa using hle
            constructor
            · rw [length_insertEntry]
              split
              · rw [length_evictOldest]; omega
              · rw [length_evictOldest]; omega
            · exact keysNodup_insertEntry _ _ _ _ (keysNodup_evictOldest _ hn)
        · simp only [if_neg hcap]
          constructor
          · rw [length_insertEntry]
            split
            · exact hle
            · omega
          · exact keysNodup_insertEntry _ _ _ _ hn

/-- On a successful network fetch into a full map, the oldest entry is
removed before the new one is inserted. -/
theorem fetch_jwks_network_evicts (env : JwksEnv) (now : Nat) (cache : JwksCache)
    (uri : String) (hlen : cache.length = MAX_CACHE_SIZE) :
    ∀ jwks, (fetch_jwks_network env now cache uri).1 = .ok jwks →
    ∃ m, JwksCache.minFetched cache = some m ∧
      (fetch_jwks_network env now cache uri).2.1 =
        JwksCache.insertEntry (cache.eraseP (fun e => e.uri = m.uri)) uri jwks now := by
  intro jwks hok
  unfold fetch_jwks_network at hok ⊢
  cases hg : env.httpGet uri with
  | none => rw [hg] at hok; cases hok
  | some resp =>
    rw [hg] at hok
    dsimp only at hok ⊢
    by_cases hst : resp.status ≠ 200
    · rw [if_pos hst] at hok; cases hok
    · rw [if_neg hst] at hok ⊢
      cases hp : env.parseJwks resp.body with
      | none => rw [hp] at hok; cases hok
      | some jwks1 =>
        rw [hp] at hok
        dsimp only at hok ⊢
        have hj : jwks1 = jwks := by
          have := Except.ok.inj hok
          exact this
        subst hj
        have hcap : cache.length ≥ MAX_CACHE_SIZE := by omega
        rw [if_pos hcap]
        cases cache with
        | nil => simp [MAX_CACHE_SIZE] at hlen
        | cons e rest =>
          obtain ⟨m, hm⟩ := minFetched_isSome e rest
          refine ⟨m, hm, ?_⟩
          unfold JwksCache.evictOldest
          rw [hm]

/-- C7: every `fetch_jwks` call preserves "at most 100 entries" (and key
uniqueness); moreover, whenever an insertion happens (a successful fetch,
trace non-empty) while the cache is at 100 entries, the entry with the
oldest `fetched_at` is removed before the new entry is inserted. -/
theorem C7_theorem : ∀ (env : JwksEnv) (now : Nat) (cache : JwksCache) (uri : String),
    cache.KeysNodup → cache.length ≤ MAX_CACHE_SIZE →
    ((fetch_jwks env now cache uri).2.1.length ≤ MAX_CACHE_SIZE ∧
     (fetch_jwks env now cache uri).2.1.KeysNodup) ∧
    (cache.length = MAX_CACHE_SIZE →
      ∀ jwks, (fetch_jwks env now cache uri).1 = .ok jwks →
        (fetch_jwks env now cache uri).2.2 ≠ [] →
        ∃ m, JwksCache.minFetched cache = some m ∧
          (fetch_jwks env now cache uri).2.1 =
            JwksCache.insertEntry (cache.eraseP (fun e => e.uri = m.uri)) uri jwks now) := by
  intro env now cache uri hn hle
  unfold fetch_jwks
  split
  · exact ⟨⟨hle, hn⟩, fun _ _ _ htr => absurd rfl htr⟩
  · cases hgot : JwksCache.get cache uri with
    | some entry =>
      dsimp only
      split
      · exact ⟨⟨hle, hn⟩, fun _ _ _ htr => absurd rfl htr⟩
      · exact ⟨fetch_jwks_network_bound env now cache uri hn hle,
          fun hlen jwks hok _ => fetch_jwks_network_evicts env now cache uri hlen jwks hok⟩
    | none =>
      exact ⟨fetch_jwks_network_bound env now cache uri hn hle,
        fun hlen jwks hok _ => fetch_jwks_network_evicts env now cache uri hlen jwks hok⟩

/-- A JWKS environment whose endpoint always answers 200 with a body that
parses to an empty key set. -/
def envJwks : JwksEnv := {
  httpGet := fun _ => some { status := 200, body := "j" }
  parseJwks := fun _ => some { keys := [] } }

/-- C7 (witness): the bound holds after a concrete fetch into an empty
cache. -/
theorem C7_witness :
    (fetch_jwks envJwks 0 [] "https://keys.example/jwks").2.1.length ≤ MAX_CACHE_SIZE ∧
    (fetch_jwks envJwks 0 [] "https://keys.example/jwks").2.1.KeysNodup :=
  (C7_theorem envJwks 0 [] "https://keys.example/jwks"
    (by simp [JwksCache.KeysNodup]) (by decide)).1

/-! ## C8 -/

/-- The network path always records exactly its one GET. -/
theorem fetch_jwks_network_trace (env : JwksEnv) (now : Nat) (cache : JwksCache)
    (uri : String) :
    (fetch_jwks_network env now cache uri).2.2 = [HttpEvent.get uri] := by
  unfold fetch_jwks_network
  split
  · rfl
  · dsimp only
    split
    · rfl
    · split <;> rfl

/-- C8 (counterexample): after fetching `https://a` at time 0 and
`https://b` at time 600 s, the entry for `https://a` is still in the
cache with age 600 s ≥ 5 min — expired entries are not removed, only
bypassed. -/
theorem C8_counterexample :
    ∃ e, e ∈ (fetch_jwks envJwks 600
        (fetch_jwks envJwks 0 [] "https://a").2.1 "https://b").2.1 ∧
      ¬ (600 - e.fetched_at < CACHE_DURATION) := by
  have h : (fetch_jwks envJwks 600
      (fetch_jwks envJwks 0 [] "https://a").2.1 "https://b").2.1 =
      [{ uri := "https://a", jwks := { keys := [] }, fetched_at := 0 },
       { uri := "https://b", jwks := { keys := [] }, fetched_at := 600 }] := by rfl
  rw [h]
  exact ⟨{ uri := "https://a", jwks := { keys := [] }, fetched_at := 0 },
    by simp, by decide⟩

/-- C8 (amended): no READ is ever served from a stale entry: whenever
`fetch_jwks` returns keys without touching the network (empty trace),
the serving entry's age is strictly below 5 minutes and the cache is
unchanged.  Stale entries may remain stored (the counterexample) but are
never returned. -/
theorem C8_theorem : ∀ (env : JwksEnv) (now : Nat) (cache : JwksCache)
    (uri : String) (r : JwksResponse),
    (fetch_jwks env now cache uri).1 = .ok r →
    (fetch_jwks env now cache uri).2.2 = [] →
    ∃ e, JwksCache.get cache uri = some e ∧
      now - e.fetched_at < CACHE_DURATION ∧
      r = e.jwks ∧
      (fetch_jwks env now cache uri).2.1 = cache := by
  intro env now cache uri r hok htr
  by_cases hsan : (uri = "" ∨ rustLen uri > 2048)
  · rw [fetch_jwks, if_pos hsan] at hok
    cases hok
  · rw [fetch_jwks, if_neg hsan] at hok htr ⊢
    cases hget : JwksCache.get cache uri with
    | none =>
      rw [hget] at htr
      dsimp only at htr
      rw [fetch_jwks_network_trace] at htr
      cases htr
    | some entry =>
      rw [hget] at hok htr
      dsimp only at hok htr ⊢
      by_cases hfresh : now - entry.fetched_at < CACHE_DURATION
      · rw [if_pos hfresh] at hok ⊢
        exact ⟨entry, rfl, hfresh, (Except.ok.inj hok).symm, rfl⟩
      · rw [if_neg hfresh] at htr
        rw [fetch_jwks_network_trace] at htr
        cases htr

/-- C8 (witness): a fresh hit (age 100 s) is served from the cache and
leaves it unchanged. -/
theorem C8_witness :
    ∃ e, JwksCache.get
        [({ uri := "https://a", jwks := { keys := [] }, fetched_at := 100 } : JwksCacheEntry)]
        "https://a" = some e ∧
      200 - e.fetched_at < CACHE_DURATION ∧
      ({ keys := [] } : JwksResponse) = e.jwks ∧
      (fetch_jwks envJwks 200
        [{ uri := "https://a", jwks := { keys := [] }, fetched_at := 100 }]
        "https://a").2.1 =
        [{ uri := "https://a", jwks := { keys := [] }, fetched_at := 100 }] :=
  C8_theorem envJwks 200
    [{ uri := "https://a", jwks := { keys := [] }, fetched_at := 100 }]
    "https://a" { keys := [] } rfl rfl

/-! ## C9 -/

/-- Spin variables configuring an AuthKit provider with an explicit
`http://` JWKS URI. -/
def varsAuthkitHttpJwks : SpinVars := fun k =>
  if k = "auth_provider_issuer" then some "example.com"
  else if k = "auth_provider_jwks_uri" then some "http://jwks.example/keys"
  else none

/-- C9 (counterexample): for the `authkit` provider type an explicit
`http://` JWKS URI does NOT fail configuration loading — it is stored
verbatim, bypassing `ensure_https_url` (unlike every OIDC URL and the
issuer). -/
theorem C9_counterexample :
    rustStartsWith "http://jwks.example/keys" "http://" = true ∧
    load_provider_config varsAuthkitHttpJwks "authkit" =
      .ok (ProviderConfig.authKit "https://example.com"
        (some "http://jwks.example/keys") none) :=
  ⟨rfl, rfl⟩

/-- `Except` bind on a success. -/
theorem Except_bind_ok {ε α β : Type} (a : α) (f : α → Except ε β) :
    (Except.ok a >>= f) = f a := rfl

/-- `Except` bind on a failure short-circuits. -/
theorem Except_bind_error {ε α β : Type} (e : ε) (f : α → Except ε β) :
    ((Except.error e : Except ε α) >>= f) = Except.error e := rfl

/-- The fixed HTTPS rejection message. -/
def httpsErrMsg : String :=
  "Auth provider URLs must use HTTPS. HTTP is not allowed for security reasons."

/-- `ensure_https_url` on an explicit `http://` URL fails. -/
theorem ensure_https_url_error (url : String)
    (h : rustStartsWith url "http://" = true) :
    ensure_https_url url = .error httpsErrMsg := by
  simp [ensure_https_url, h, httpsErrMsg]

/-- `ensure_https_url` keeps an `https://` URL unchanged. -/
theorem ensure_https_url_keep (url : String)
    (h1 : rustStartsWith url "http://" = false)
    (h2 : rustStartsWith url "https://" = true) :
    ensure_https_url url = .ok url := by
  simp [ensure_https_url, h1, h2]

/-- `ensure_https_url` promotes a scheme-less URL. -/
theorem ensure_https_url_promote (url : String)
    (h1 : rustStartsWith url "http://" = false)
    (h2 : rustStartsWith url "https://" = false) :
    ensure_https_url url = .ok ("https://" ++ url) := by
  simp [ensure_https_url, h1, h2]

/-- C9 (amended): `ensure_https_url` rejects explicit `http://`, keeps
`https://`, and promotes scheme-less URLs; configuration loading applies
it to the issuer (both provider types, before anything else) and to the
OIDC `jwks_uri`, authorization, token and (non-empty) userinfo endpoints
— each explicit `http://` there fails the load.  The AuthKit provider's
explicit `jwks_uri`, however, is stored VERBATIM without the check (the
counterexample), so the original claim holds for every listed URL except
AuthKit's `jwks_uri`. -/
theorem C9_theorem :
    (∀ url, rustStartsWith url "http://" = true →
      ensure_https_url url = .error httpsErrMsg) ∧
    (∀ url, rustStartsWith url "http://" = false →
      rustStartsWith url "https://" = true → ensure_https_url url = .ok url) ∧
    (∀ url, rustStartsWith url "http://" = false →
      rustStartsWith url "https://" = false →
      ensure_https_url url = .ok ("https://" ++ url)) ∧
    (∀ (vars : SpinVars) (t url : String), vars "auth_provider_issuer" = some url →
      rustStartsWith url "http://" = true →
      load_provider_config vars t = .error httpsErrMsg) ∧
    (∀ (vars : SpinVars) (url : String), vars "auth_provider_jwks_uri" = some url →
      rustStartsWith url "http://" = true →
      ∃ e, load_provider_config vars "oidc" = .error e) ∧
    (∀ (vars : SpinVars) (url : String),
      vars "auth_provider_authorize_endpoint" = some url →
      rustStartsWith url "http://" = true →
      ∃ e, load_provider_config vars "oidc" = .error e) ∧
    (∀ (vars : SpinVars) (url : String),
      vars "auth_provider_token_endpoint" = some url →
      rustStartsWith url "http://" = true →
      ∃ e, load_provider_config vars "oidc" = .error e) ∧
    (∀ (vars : SpinVars) (url : String),
      vars "auth_provider_userinfo_endpoint" = some url → ¬ url = "" →
      rustStartsWith url "http://" = true →
      ∃ e, load_provider_config vars "oidc" = .error e) ∧
    (∀ (vars : SpinVars) (i i2 : String), vars "auth_provider_issuer" = some i →
      ensure_https_url i = .ok i2 →
      load_provider_config vars "authkit" =
        .ok (ProviderConfig.authKit i2
          ((vars "auth_provider_jwks_uri").filter (fun s => s ≠ ""))
          ((vars "auth_provider_audience").filter (fun s => s ≠ "")))) := by
  refine ⟨ensure_https_url_error, ensure_https_url_keep, ensure_https_url_promote,
    ?_, ?_, ?_, ?_, ?_, ?_⟩
  · intro vars t url hvi hhttp
    simp only [load_provider_config, requireVar, hvi, Except_bind_ok,
      ensure_https_url_error url hhttp, Except_bind_error]
  · intro vars url hv hhttp
    rcases hvi : vars "auth_provider_issuer" with _ | i
    · exact ⟨_, by simp only [load_provider_config, requireVar, hvi, Except_bind_error]; rfl⟩
    · rcases hei : ensure_https_url i with e | i2
      · exact ⟨_, by simp only [load_provider_config, requireVar, hvi, hei,
          Except_bind_ok, Except_bind_error]; rfl⟩
      · rcases hvn : vars "auth_provider_name" with _ | n
        · exact ⟨_, by simp only [load_provider_config, requireVar, hvi, hei, hvn,
            Except_bind_ok, Except_bind_error]; rfl⟩
        · exact ⟨_, by simp only [load_provider_config, requireVar, hvi, hei, hvn, hv,
            Except_bind_ok, ensure_https_url_error url hhttp, Except_bind_error]; rfl⟩
  · intro vars url hv hhttp
    rcases hvi : vars "auth_provider_issuer" with _ | i
    · exact ⟨_, by simp only [load_provider_config, requireVar, hvi, Except_bind_error]; rfl⟩
    · rcases hei : ensure_https_url i with e | i2
      · exact ⟨_, by simp only [load_provider_config, requireVar, hvi, hei,
          Except_bind_ok, Except_bind_error]; rfl⟩
      · rcases hvn : vars "auth_provider_name" with _ | n
        · exact ⟨_, by simp only [load_provider_config, requireVar, hvi, hei, hvn,
            Except_bind_ok, Except_bind_error]; rfl⟩
        · rcases hvj : vars "auth_provider_jwks_uri" with _ | j
          · exact ⟨_, by simp only [load_provider_config, requireVar, hvi, hei, hvn, hvj,
              Except_bind_ok, Except_bind_error]; rfl⟩
          · rcases hej : ensure_https_url j with e | j2
            · exact ⟨_, by simp only [load_provider_config, requireVar, hvi, hei, hvn, hvj,
                hej, Except_bind_ok, Except_bind_error]; rfl⟩
            · exact ⟨_, by simp only [load_provider_config, requireVar, hvi, hei, hvn, hvj,
                hej, hv, Except_bind_ok, ensure_https_url_error url hhttp, Except_bind_error]; rfl⟩
  · intro vars url hv hhttp
    rcases hvi : vars "auth_provider_issuer" with _ | i
    · exact ⟨_, by simp only [load_provider_config, requireVar, hvi, Except_bind_error]; rfl⟩
    · rcases hei : ensure_https_url i with e | i2
      · exact ⟨_, by simp only [load_provider_config, requireVar, hvi, hei,
          Except_bind_ok, Except_bind_error]; rfl⟩
      · rcases hvn : vars "auth_provider_name" with _ | n
        · exact ⟨_, by simp only [load_provider_config, requireVar, hvi, hei, hvn,
            Except_bind_ok, Except_bind_error]; rfl⟩
        · rcases hvj : vars "auth_provider_jwks_uri" with _ | j
          · exact ⟨_, by simp only [load_provider_config, requireVar, hvi, hei, hvn, hvj,
              Except_bind_ok, Except_bind_error]; rfl⟩
          · rcases hej : ensure_https_url j with e | j2
            · exact ⟨_, by simp only [load_provider_config, requireVar, hvi, hei, hvn, hvj,
                hej, Except_bind_ok, Except_bind_error]; rfl⟩
            · rcases hva : vars "auth_provider_authorize_endpoint" with _ | a
              · exact ⟨_, by simp only [load_provider_config, requireVar, hvi, hei, hvn,
                  hvj, hej, hva, Except_bind_ok, Except_bind_error]; rfl⟩
              · rcases hea : ensure_https_url a with e | a2
                · exact ⟨_, by simp only [load_provider_config, requireVar, hvi, hei, hvn,
                    hvj, hej, hva, hea, Except_bind_ok, Except_bind_error]; rfl⟩
                · exact ⟨_, by simp only [load_provider_config, requireVar, hvi, hei, hvn,
                    hvj, hej, hva, hea, hv, Except_bind_ok,
                    ensure_https_url_error url hhttp, Except_bind_error]; rfl⟩
  · intro vars url hv hne hhttp
    rcases hvi : vars "auth_provider_issuer" with _ | i
    · exact ⟨_, by simp only [load_provider_config, requireVar, hvi, Except_bind_error]; rfl⟩
    · rcases hei : ensure_https_url i with e | i2
      · exact ⟨_, by simp only [load_provider_config, requireVar, hvi, hei,
          Except_bind_ok, Except_bind_error]; rfl⟩
      · rcases hvn : vars "auth_provider_name" with _ | n
        · exact ⟨_, by simp only [load_provider_config, requireVar, hvi, hei, hvn,
            Except_bind_ok, Except_bind_error]; rfl⟩
        · rcases hvj : vars "auth_provider_jwks_uri" with _ | j
          · exact ⟨_, by simp only [load_provider_config, requireVar, hvi, hei, hvn, hvj,
              Except_bind_ok, Except_bind_error]; rfl⟩
          · rcases hej : ensure_https_url j with e | j2
            · exact ⟨_, by simp only [load_provider_config, requireVar, hvi, hei, hvn, hvj,
                hej, Except_bind_ok, Except_bind_error]; rfl⟩
            · rcases hva : vars "auth_provider_authorize_endpoint" with _ | a
              · exact ⟨_, by simp only [load_provider_config, requireVar, hvi, hei, hvn,
                  hvj, hej, hva, Except_bind_ok, Except_bind_error]; rfl⟩
              · rcases hea : ensure_https_url a with e | a2
                · exact ⟨_, by simp only [load_provider_config, requireVar, hvi, hei, hvn,
                    hvj, hej, hva, hea, Except_bind_ok, Except_bind_error]; rfl⟩
                · rcases hvt : vars "auth_provider_token_endpoint" with _ | tk
                  · exact ⟨_, by simp only [load_provider_config, requireVar, hvi, hei,
                      hvn, hvj, hej, hva, hea, hvt, Except_bind_ok, Except_bind_error]; rfl⟩
                  · rcases het : ensure_https_url tk with e | t2
                    · exact ⟨_, by simp only [load_provider_config, requireVar, hvi, hei,
                        hvn, hvj, hej, hva, hea, hvt, het, Except_bind_ok,
                        Except_bind_error]; rfl⟩
                    · refine ⟨httpsErrMsg, ?_⟩
                      simp [load_provider_config, requireVar, hvi, hei, hvn, hvj,
                        hej, hva, hea, hvt, het, hv, Option.filter, hne,
                        Except_bind_ok, ensure_https_url_error url hhttp,
                        Except_bind_error, Functor.map, Except.map]
  · intro vars i i2 hvi hei
    simp only [load_provider_config, requireVar, hvi, hei, Except_bind_ok]
    rfl

/-- C9 (witness): a concrete rejection, a concrete promotion, and a
concrete AuthKit load whose verbatim `http://` JWKS URI passes through. -/
theorem C9_witness :
    ensure_https_url "http://x.example" = .error httpsErrMsg ∧
    ensure_https_url "x.example" = .ok "https://x.example" ∧
    load_provider_config varsAuthkitHttpJwks "authkit" =
      .ok (ProviderConfig.authKit "https://example.com"
        (some "http://jwks.example/keys") none) :=
  ⟨C9_theorem.1 "http://x.example" rfl,
   C9_theorem.2.2.1 "x.example" rfl rfl,
   C9_theorem.2.2.2.2.2.2.2.2 varsAuthkitHttpJwks "example.com" "https://example.com"
     rfl rfl⟩

end Ftl
